import Mathlib

/-!
# Job-application tracker: shallow embedding and verification

A shallow embedding of the data-access core of a job-application tracker:
a PostgreSQL schema with row-level security (RLS) policies, a `valid_status`
CHECK constraint, `ON DELETE CASCADE` from tasks to applications, and
`updated_at` triggers (supabase/migrations/20251104082516*.sql), together
with the client-side operations (zod validation + supabase CRUD calls) from
the Applications page, the ApplicationDetail page, the Tasks page and the
TaskDetail page.

Modelling conventions:
* user/application/task ids and timestamps are `Nat`;
* `auth.uid()` is the `caller` argument threaded through every operation;
* RLS `SELECT`/`UPDATE`/`DELETE` policies (`auth.uid() = user_id`) become
  filters on the row lists; the `INSERT` policies become `WITH CHECK` tests;
* PostgreSQL foreign-key checks bypass row security (they run as the table
  owner), so the tasks→applications FK test looks at *all* applications,
  not just the caller-visible ones;
* a CHECK constraint aborts the whole statement, so an out-of-enum status
  on a row actually being written yields a database error and leaves the
  state untouched;
* fallible operations return `Except StoreError _`; `.error` means the
  statement aborted and the store is unchanged; a fetch that finds nothing
  returns `none` (surfaced to the user as a generic "not found").
-/

namespace JobTracker

abbrev UserId := Nat
abbrev AppId := Nat
abbrev TaskId := Nat

/-- A row of `public.applications` (migration lines 31–41). -/
structure ApplicationRow where
  id : AppId
  user_id : UserId
  company : String
  position : String
  status : String
  notes : Option String
  created_at : Nat
  updated_at : Nat
deriving Repr, DecidableEq

/-- A row of `public.tasks` (migration lines 68–78). -/
structure TaskRow where
  id : TaskId
  application_id : AppId
  user_id : UserId
  title : String
  due_date : Option Nat
  completed : Bool
  notes : Option String
  created_at : Nat
  updated_at : Nat
deriving Repr, DecidableEq

/-- The persistent store: the two owner-scoped tables plus fresh-id
counters standing for `uuid_generate_v4()`. -/
structure DB where
  applications : List ApplicationRow
  tasks : List TaskRow
  nextAppId : Nat
  nextTaskId : Nat
deriving Repr, DecidableEq

/-- Errors of a mutating call: `validation msg` is a zod issue raised
client-side before any storage call (the toasted `error.errors[0].message`);
`dbError` is a failed supabase statement (constraint violation), toasted as
a generic failure message. -/
inductive StoreError where
  | validation (msg : String)
  | dbError
deriving Repr, DecidableEq

/-- Returns `true` exactly on the zod-validation errors, used to tell the two error
channels apart. -/
def isValidationError {β : Type} : Except StoreError β → Bool
  | .error (.validation _) => true
  | _ => false

/-- The `valid_status` CHECK constraint:
`status IN ('applied', 'interview', 'offer', 'rejected')`. -/
def isValidStatus (s : String) : Bool :=
  s == "applied" || s == "interview" || s == "offer" || s == "rejected"

/-- JavaScript whitespace as far as the form inputs can contain it. -/
def isWs (c : Char) : Bool :=
  c = ' ' || c = '\t' || c = '\n' || c = '\r'

/-- JavaScript `String.prototype.trim` (and zod's `.trim()`): strip leading and
trailing whitespace. -/
def jsTrim (s : String) : String :=
  ⟨((s.data.dropWhile isWs).reverse.dropWhile isWs).reverse⟩

/-- The zod `applicationSchema.parse` (Applications/ApplicationDetail pages):
`company` and `position` are trimmed then checked non-empty and ≤ 100 chars,
`notes` is checked ≤ 1000 chars; the result is `some` of the first issue's
message (`error.errors[0].message`, fields in declaration order), `none` when
the object parses. -/
def parseApplicationSchema (company position notes : String) : Option String :=
  if (jsTrim company).length < 1 then some "Company name is required"
  else if (jsTrim company).length > 100 then
    some "String must contain at most 100 character(s)"
  else if (jsTrim position).length < 1 then some "Position is required"
  else if (jsTrim position).length > 100 then
    some "String must contain at most 100 character(s)"
  else if notes.length > 1000 then
    some "String must contain at most 1000 character(s)"
  else none

/-- The zod `taskSchema.parse` (Tasks/TaskDetail pages). -/
def parseTaskSchema (title notes : String) : Option String :=
  if (jsTrim title).length < 1 then some "Title is required"
  else if (jsTrim title).length > 200 then
    some "String must contain at most 200 character(s)"
  else if notes.length > 1000 then
    some "String must contain at most 1000 character(s)"
  else none

/-- The `notes.trim() || null` idiom used by every insert/update call:
an empty-after-trim string is stored as SQL `NULL`. -/
def normNotes (notes : String) : Option String :=
  if jsTrim notes == "" then none else some (jsTrim notes)

/-- The payload of `supabase.from('applications').insert({...})`. `status`
is optional at the table level (`DEFAULT 'applied'`). -/
structure AppInsert where
  user_id : UserId
  company : String
  position : String
  status : Option String
  notes : Option String

/-- An `INSERT` into `public.applications`: the RLS `WITH CHECK
(auth.uid() = user_id)` policy, the `DEFAULT 'applied'` column default, the
`valid_status` CHECK constraint, the generated id and the `NOW()`
timestamps. -/
def insertApplication (caller : UserId) (row : AppInsert) (now : Nat)
    (db : DB) : Except StoreError (AppId × DB) :=
  if row.user_id != caller then .error .dbError
  else if !isValidStatus (row.status.getD "applied") then .error .dbError
  else
    .ok (db.nextAppId,
      { db with
        applications := db.applications ++
          [{ id := db.nextAppId, user_id := row.user_id,
             company := row.company, position := row.position,
             status := row.status.getD "applied", notes := row.notes,
             created_at := now, updated_at := now }],
        nextAppId := db.nextAppId + 1 })

/-- Function `handleSubmit` of the Applications page: zod-parse the raw form state,
returning the first issue without touching storage, otherwise insert the
trimmed/normalized row with `user_id := caller`. -/
def createApplication (caller : UserId) (company position status notes : String)
    (now : Nat) (db : DB) : Except StoreError (AppId × DB) :=
  match parseApplicationSchema company position notes with
  | some msg => .error (.validation msg)
  | none =>
    insertApplication caller
      { user_id := caller, company := jsTrim company, position := jsTrim position,
        status := some status, notes := normNotes notes } now db

/-- The rows of `applications` visible to `caller` under the RLS `SELECT`
policy `auth.uid() = user_id`. -/
def visibleApps (caller : UserId) (db : DB) : List ApplicationRow :=
  db.applications.filter (fun a => a.user_id == caller)

/-- The rows of `tasks` visible to `caller` under the RLS `SELECT` policy. -/
def visibleTasks (caller : UserId) (db : DB) : List TaskRow :=
  db.tasks.filter (fun t => t.user_id == caller)

/-- Order by `created_at` descending, used by both application lists. -/
def appListLE (a b : ApplicationRow) : Prop := b.created_at ≤ a.created_at

instance : DecidableRel appListLE := fun a b => by
  unfold appListLE; infer_instance

instance : IsTotal ApplicationRow appListLE :=
  ⟨fun a b => Nat.le_total b.created_at a.created_at⟩

instance : IsTrans ApplicationRow appListLE :=
  ⟨fun _ _ _ h h' => Nat.le_trans h' h⟩

/-- Function `fetchApplications` of the Applications page:
`select('*').order('created_at', { ascending: false })`, RLS-scoped. -/
def fetchApplications (caller : UserId) (db : DB) : List ApplicationRow :=
  List.insertionSort appListLE (visibleApps caller db)

/-- Function `fetchApplication` of the ApplicationDetail page:
`select('*').eq('id', id).maybeSingle()`, RLS-scoped; `none` is surfaced as
"Failed to load application" whether the id is absent or foreign-owned. -/
def fetchApplication (caller : UserId) (id : AppId) (db : DB) :
    Option ApplicationRow :=
  (visibleApps caller db).find? (fun a => a.id == id)

/-- Function `handleUpdate` of the ApplicationDetail page: zod-parse, then
`update({company, position, status, notes}).eq('id', id)`. The RLS `UPDATE`
policy restricts the write to caller-owned rows; the `valid_status` CHECK
constraint aborts the statement when a row is actually being written with an
out-of-enum status; the `update_updated_at_column` trigger stamps `now`. -/
def updateApplication (caller : UserId) (id : AppId)
    (company position status notes : String) (now : Nat) (db : DB) :
    Except StoreError DB :=
  match parseApplicationSchema company position notes with
  | some msg => .error (.validation msg)
  | none =>
    let matched := db.applications.any (fun a => a.id == id && a.user_id == caller)
    if matched && !isValidStatus status then .error .dbError
    else
      .ok { db with
        applications := db.applications.map (fun a =>
          if a.id == id && a.user_id == caller then
            { a with company := jsTrim company, position := jsTrim position,
                     status := status, notes := normNotes notes,
                     updated_at := now }
          else a) }

/-- Function `handleDelete` of the ApplicationDetail page:
`delete().eq('id', id)` under the RLS `DELETE` policy, with the
`ON DELETE CASCADE` clause of `tasks.application_id` removing every task
row referencing a deleted application — one atomic statement, modelled as
one transition. -/
def deleteApplication (caller : UserId) (id : AppId) (db : DB) : DB :=
  let deletedIds :=
    (db.applications.filter (fun a => a.id == id && a.user_id == caller)).map
      (fun a => a.id)
  { db with
    applications :=
      db.applications.filter (fun a => !(a.id == id && a.user_id == caller)),
    tasks := db.tasks.filter (fun t => !deletedIds.contains t.application_id) }

/-- The payload of `supabase.from('tasks').insert({...})`. `completed` is
absent from the client payload and takes the table default `FALSE`. -/
structure TaskInsert where
  user_id : UserId
  application_id : AppId
  title : String
  due_date : Option Nat
  notes : Option String

/-- An `INSERT` into `public.tasks`: the RLS `WITH CHECK
(auth.uid() = user_id)` policy and the `application_id REFERENCES
public.applications(id)` foreign key. PostgreSQL referential-integrity
checks bypass row security, so the FK is satisfied by *any* existing
application row, whoever owns it; no policy inspects the parent
application's owner. -/
def insertTask (caller : UserId) (row : TaskInsert) (now : Nat) (db : DB) :
    Except StoreError (TaskId × DB) :=
  if row.user_id != caller then .error .dbError
  else if !db.applications.any (fun a => a.id == row.application_id) then
    .error .dbError
  else
    .ok (db.nextTaskId,
      { db with
        tasks := db.tasks ++
          [{ id := db.nextTaskId, application_id := row.application_id,
             user_id := row.user_id, title := row.title,
             due_date := row.due_date, completed := false,
             notes := row.notes, created_at := now, updated_at := now }],
        nextTaskId := db.nextTaskId + 1 })

/-- Function `handleSubmit` of the Tasks page: zod-parse, reject the empty
application selection, then insert with `user_id := caller` and the chosen
`application_id`. -/
def createTask (caller : UserId) (applicationId : Option AppId)
    (title : String) (dueDate : Option Nat) (notes : String) (now : Nat)
    (db : DB) : Except StoreError (TaskId × DB) :=
  match parseTaskSchema title notes with
  | some msg => .error (.validation msg)
  | none =>
    match applicationId with
    | none => .error (.validation "Please select an application")
    | some appId =>
      insertTask caller
        { user_id := caller, application_id := appId, title := jsTrim title,
          due_date := dueDate, notes := normNotes notes } now db

/-- Function `fetchTask` of the TaskDetail page:
`select('*').eq('id', id).maybeSingle()`, RLS-scoped; `none` is surfaced as
"Failed to load task" whether the id is absent or foreign-owned. -/
def fetchTask (caller : UserId) (id : TaskId) (db : DB) : Option TaskRow :=
  (visibleTasks caller db).find? (fun t => t.id == id)

/-- Function `handleUpdate` of the TaskDetail page: zod-parse, reject an empty
application selection, then `update({title, application_id, due_date,
completed, notes}).eq('id', id)`. The RLS `UPDATE` policy scopes the write
to caller-owned task rows; when a row is actually written, the FK requires
the new `application_id` to exist (again bypassing row security, so a
foreign-owned parent passes); the trigger stamps `updated_at := now`. -/
def updateTask (caller : UserId) (id : TaskId) (title : String)
    (applicationId : Option AppId) (dueDate : Option Nat) (completed : Bool)
    (notes : String) (now : Nat) (db : DB) : Except StoreError DB :=
  match parseTaskSchema title notes with
  | some msg => .error (.validation msg)
  | none =>
    match applicationId with
    | none => .error (.validation "Please select an application")
    | some appId =>
      let matched := db.tasks.any (fun t => t.id == id && t.user_id == caller)
      if matched && !db.applications.any (fun a => a.id == appId) then
        .error .dbError
      else
        .ok { db with
          tasks := db.tasks.map (fun t =>
            if t.id == id && t.user_id == caller then
              { t with title := jsTrim title, application_id := appId,
                       due_date := dueDate, completed := completed,
                       notes := normNotes notes, updated_at := now }
            else t) }

/-- Function `handleDelete` of the TaskDetail page: `delete().eq('id', id)` under
the RLS `DELETE` policy. -/
def deleteTask (caller : UserId) (id : TaskId) (db : DB) : DB :=
  { db with
    tasks := db.tasks.filter (fun t => !(t.id == id && t.user_id == caller)) }

/-- Function `toggleComplete` of the Tasks page:
`update({ completed: !task.completed }).eq('id', task.id)` where `task` is
the row as last fetched; the trigger stamps `updated_at`. -/
def toggleComplete (caller : UserId) (task : TaskRow) (now : Nat) (db : DB) :
    DB :=
  { db with
    tasks := db.tasks.map (fun t =>
      if t.id == task.id && t.user_id == caller then
        { t with completed := !task.completed, updated_at := now }
      else t) }

/-- Strict due-date order with SQL `NULL` greatest ("nulls last"). -/
def dueLt : Option Nat → Option Nat → Prop
  | some x, some y => x < y
  | some _, none => True
  | none, some _ => False
  | none, none => False

instance instDecDueLt : (x y : Option Nat) → Decidable (dueLt x y)
  | some x, some y => inferInstanceAs (Decidable (x < y))
  | some _, none => inferInstanceAs (Decidable True)
  | none, some _ => inferInstanceAs (Decidable False)
  | none, none => inferInstanceAs (Decidable False)

theorem dueLt_trichotomy (x y : Option Nat) :
    dueLt x y ∨ x = y ∨ dueLt y x := by
  rcases x with _ | x <;> rcases y with _ | y <;> simp [dueLt]
  exact Nat.lt_trichotomy x y

theorem dueLt_trans {x y z : Option Nat} (h : dueLt x y) (h' : dueLt y z) :
    dueLt x z := by
  rcases x with _ | x <;> rcases y with _ | y <;> rcases z with _ | z <;>
    simp_all [dueLt]
  exact Nat.lt_trans h h'

/-- The task-list order of the Tasks page:
`.order('due_date', { ascending: true, nullsFirst: false })
.order('created_at', { ascending: false })` — due date ascending with SQL
`NULL` last, ties broken by creation time descending. -/
def taskListLE (a b : TaskRow) : Prop :=
  dueLt a.due_date b.due_date ∨
    (a.due_date = b.due_date ∧ b.created_at ≤ a.created_at)

instance : DecidableRel taskListLE := fun a b => by
  unfold taskListLE; infer_instance

instance : IsTotal TaskRow taskListLE := by
  constructor
  intro a b
  rcases dueLt_trichotomy a.due_date b.due_date with h | h | h
  · exact Or.inl (Or.inl h)
  · rcases Nat.le_total b.created_at a.created_at with h' | h'
    · exact Or.inl (Or.inr ⟨h, h'⟩)
    · exact Or.inr (Or.inr ⟨h.symm, h'⟩)
  · exact Or.inr (Or.inl h)

instance : IsTrans TaskRow taskListLE := by
  constructor
  intro a b c hab hbc
  rcases hab with h | ⟨he, h⟩ <;> rcases hbc with h' | ⟨he', h'⟩
  · exact Or.inl (dueLt_trans h h')
  · exact Or.inl (he' ▸ h)
  · exact Or.inl (he ▸ h')
  · exact Or.inr ⟨he.trans he', Nat.le_trans h' h⟩

/-- The embedded resource `applications ( company, position )` of the
Tasks-page select: the parent application's summary, itself subject to the
applications RLS `SELECT` policy. -/
def joinApp (caller : UserId) (db : DB) (t : TaskRow) :
    Option (String × String) :=
  ((visibleApps caller db).find? (fun a => a.id == t.application_id)).map
    (fun a => (a.company, a.position))

/-- Function `fetchTasks` of the Tasks page: the caller's task rows, ordered by due
date ascending (nulls last) then creation time descending, each joined with
its parent application's `(company, position)` summary. -/
def fetchTasks (caller : UserId) (db : DB) :
    List (TaskRow × Option (String × String)) :=
  (List.insertionSort taskListLE (visibleTasks caller db)).map
    (fun t => (t, joinApp caller db t))

/-- Store invariants guaranteed by the schema: primary-key uniqueness for
both tables, freshness of the id counters, and the tasks→applications
foreign key. -/
structure WF (db : DB) : Prop where
  appIdsNodup : (db.applications.map (fun a => a.id)).Nodup
  taskIdsNodup : (db.tasks.map (fun t => t.id)).Nodup
  appIdsLt : ∀ a ∈ db.applications, a.id < db.nextAppId
  taskIdsLt : ∀ t ∈ db.tasks, t.id < db.nextTaskId
  taskParent : ∀ t ∈ db.tasks, ∃ a ∈ db.applications, a.id = t.application_id

/-! ## Concrete stores used by witnesses and counterexamples -/

/-- An application owned by user 1. -/
def appAcme : ApplicationRow :=
  { id := 0, user_id := 1, company := "Acme", position := "Engineer",
    status := "applied", notes := none, created_at := 0, updated_at := 0 }

/-- An application owned by user 2. -/
def appBeta : ApplicationRow :=
  { id := 1, user_id := 2, company := "Beta", position := "Analyst",
    status := "applied", notes := none, created_at := 1, updated_at := 1 }

/-- A store holding only user 1's application. -/
def dbAcme : DB :=
  { applications := [appAcme], tasks := [], nextAppId := 1, nextTaskId := 1 }

/-! ## Helper lemmas -/

theorem mem_visibleApps {caller : UserId} {db : DB} {a : ApplicationRow} :
    a ∈ visibleApps caller db ↔ a ∈ db.applications ∧ a.user_id = caller := by
  simp [visibleApps, List.mem_filter]

theorem mem_visibleTasks {caller : UserId} {db : DB} {t : TaskRow} :
    t ∈ visibleTasks caller db ↔ t ∈ db.tasks ∧ t.user_id = caller := by
  simp [visibleTasks, List.mem_filter]

/-- In a list whose keys are distinct, searching for a member's key finds
exactly that member. -/
theorem find?_key_eq {α : Type} (f : α → Nat) :
    ∀ (l : List α) (a : α), (l.map f).Nodup → a ∈ l →
      l.find? (fun x => f x == f a) = some a
  | [], a, _, ha => absurd ha (List.not_mem_nil a)
  | x :: xs, a, hnd, ha => by
    rw [List.map_cons, List.nodup_cons] at hnd
    rcases List.mem_cons.mp ha with rfl | hmem
    · exact List.find?_cons_of_pos _ (by simp)
    · have hne : f x ≠ f a := fun he =>
        hnd.1 (he ▸ List.mem_map_of_mem f hmem)
      rw [List.find?_cons_of_neg _ (by simpa using hne)]
      exact find?_key_eq f xs a hnd.2 hmem

/-! ## C1 -/

/-- C1. Get-Application/Get-Task return a record only when the caller
owns it; whenever every row bearing the requested id is foreign-owned — in
particular when no row bears it at all — the result is the same `none`
(NotFoundError), so an ownership violation and a missing id are
indistinguishable to the caller; and the two list operations return only
caller-owned records. -/
theorem ownership_isolation :
    (∀ caller id db a, fetchApplication caller id db = some a →
        a.user_id = caller ∧ a.id = id) ∧
    (∀ caller id db t, fetchTask caller id db = some t →
        t.user_id = caller ∧ t.id = id) ∧
    (∀ caller id db, (∀ a ∈ db.applications, a.id = id → a.user_id ≠ caller) →
        fetchApplication caller id db = none) ∧
    (∀ caller id db, (∀ t ∈ db.tasks, t.id = id → t.user_id ≠ caller) →
        fetchTask caller id db = none) ∧
    (∀ caller db, ∀ a ∈ fetchApplications caller db, a.user_id = caller) ∧
    (∀ caller db, ∀ p ∈ fetchTasks caller db, p.1.user_id = caller) := by
  refine ⟨?_, ?_, ?_, ?_, ?_, ?_⟩
  · intro caller id db a h
    have hm := mem_visibleApps.mp (List.mem_of_find?_eq_some h)
    have hp := List.find?_some h
    exact ⟨hm.2, by simpa using hp⟩
  · intro caller id db t h
    have hm := mem_visibleTasks.mp (List.mem_of_find?_eq_some h)
    have hp := List.find?_some h
    exact ⟨hm.2, by simpa using hp⟩
  · intro caller id db h
    unfold fetchApplication
    rw [List.find?_eq_none]
    intro x hx hbeq
    have hx' := mem_visibleApps.mp hx
    exact h x hx'.1 (by simpa using hbeq) hx'.2
  · intro caller id db h
    unfold fetchTask
    rw [List.find?_eq_none]
    intro x hx hbeq
    have hx' := mem_visibleTasks.mp hx
    exact h x hx'.1 (by simpa using hbeq) hx'.2
  · intro caller db a ha
    have : a ∈ visibleApps caller db :=
      (List.perm_insertionSort appListLE _).mem_iff.mp ha
    exact (mem_visibleApps.mp this).2
  · intro caller db p hp
    unfold fetchTasks at hp
    rw [List.mem_map] at hp
    obtain ⟨t, ht, rfl⟩ := hp
    have : t ∈ visibleTasks caller db :=
      (List.perm_insertionSort taskListLE _).mem_iff.mp ht
    exact (mem_visibleTasks.mp this).2

/-- Witness for C1: user 2 requesting user 1's application (id 0), and the
absent id 5, both receive the same `none`. -/
theorem ownership_isolation_witness :
    fetchApplication 2 0 dbAcme = none ∧
    fetchApplication 2 5 dbAcme = none :=
  ⟨ownership_isolation.2.2.1 2 0 dbAcme (by decide),
   ownership_isolation.2.2.1 2 5 dbAcme (by decide)⟩

/-! ## C2 -/

/-- C2. Deleting a caller-owned application is one atomic transition
(the single SQL `DELETE` with `ON DELETE CASCADE`; no intermediate state
exists by construction) after which no application row bears the deleted id
and zero task rows reference it, while every task of another application
and every other application survive — so exactly the N dependent tasks go. -/
theorem delete_application_cascade (caller : UserId) (id : AppId) (db : DB)
    (hnd : (db.applications.map (fun a => a.id)).Nodup)
    (ha : ∃ a ∈ db.applications, a.id = id ∧ a.user_id = caller) :
    (∀ a ∈ (deleteApplication caller id db).applications, a.id ≠ id) ∧
    (∀ t ∈ (deleteApplication caller id db).tasks, t.application_id ≠ id) ∧
    (∀ t ∈ db.tasks, t.application_id ≠ id →
        t ∈ (deleteApplication caller id db).tasks) ∧
    (∀ a ∈ db.applications, a.id ≠ id →
        a ∈ (deleteApplication caller id db).applications) := by
  obtain ⟨a0, ha0, h0id, h0u⟩ := ha
  have hinj := List.inj_on_of_nodup_map hnd
  -- the deleted-id list both contains `id` and contains nothing but `id`
  have hdel_mem : id ∈ (db.applications.filter
      (fun a => a.id == id && a.user_id == caller)).map (fun a => a.id) := by
    rw [List.mem_map]
    exact ⟨a0, List.mem_filter.mpr ⟨ha0, by simp [h0id, h0u]⟩, h0id⟩
  have hdel_only : ∀ d ∈ (db.applications.filter
      (fun a => a.id == id && a.user_id == caller)).map (fun a => a.id),
      d = id := by
    intro d hd
    rw [List.mem_map] at hd
    obtain ⟨x, hx, rfl⟩ := hd
    have := (List.mem_filter.mp hx).2
    simp at this
    exact this.1
  refine ⟨?_, ?_, ?_, ?_⟩
  · intro a hamem haid
    have hmf := List.mem_filter.mp hamem
    have : a = a0 := hinj hmf.1 ha0 (by rw [haid, h0id])
    subst this
    simp [haid, h0u] at hmf
  · intro t htmem htid
    simp only [deleteApplication, List.mem_filter] at htmem
    rw [htid] at htmem
    have h2 := htmem.2
    simp only [Bool.not_eq_true', List.contains_eq_any_beq,
      List.any_eq_false] at h2
    exact h2 id hdel_mem (by simp)
  · intro t ht htid
    apply List.mem_filter.mpr
    refine ⟨ht, ?_⟩
    simp only [Bool.not_eq_true']
    rw [List.contains_eq_any_beq, List.any_eq_false]
    intro d hd
    have := hdel_only d hd
    subst this
    simpa using htid
  · intro a ha haid
    exact List.mem_filter.mpr ⟨ha, by simp [haid]⟩

/-- Tasks of user 1 and user 2 hanging off their own applications, user 1
owning two of the three tasks under application 0. -/
def dbMixed : DB :=
  { applications := [appAcme, appBeta],
    tasks :=
      [{ id := 0, application_id := 0, user_id := 1, title := "Call",
         due_date := none, completed := false, notes := none,
         created_at := 2, updated_at := 2 },
       { id := 1, application_id := 1, user_id := 2, title := "Prep",
         due_date := none, completed := false, notes := none,
         created_at := 3, updated_at := 3 },
       { id := 2, application_id := 0, user_id := 1, title := "Mail",
         due_date := none, completed := false, notes := none,
         created_at := 4, updated_at := 4 }],
    nextAppId := 2, nextTaskId := 3 }

/-- Witness for C2: user 1 deletes application 0 from `dbMixed`; both of its
tasks go with it and user 2's task under application 1 survives. -/
theorem delete_application_cascade_witness :
    ((deleteApplication 1 0 dbMixed).applications.all
        (fun a => !(a.id == 0))) = true ∧
    ((deleteApplication 1 0 dbMixed).tasks.all
        (fun t => !(t.application_id == 0))) = true ∧
    (deleteApplication 1 0 dbMixed).tasks.length = 1 := by
  refine ⟨?_, ?_, by decide⟩
  · rw [List.all_eq_true]
    intro a ha
    have := (delete_application_cascade 1 0 dbMixed (by decide)
      ⟨appAcme, by decide, by decide, by decide⟩).1 a ha
    simpa using this
  · rw [List.all_eq_true]
    intro t ht
    have := (delete_application_cascade 1 0 dbMixed (by decide)
      ⟨appAcme, by decide, by decide, by decide⟩).2.1 t ht
    simpa using this

theorem string_length_eq_zero_iff {s : String} : s.length = 0 ↔ s = "" := by
  constructor
  · intro h
    cases s with
    | mk data =>
      cases data with
      | nil => rfl
      | cons c cs => simp [String.length] at h
  · intro h
    subst h
    rfl

/-! ## C3 -/

/-- C3. Create-Application with an empty (after trimming) company — or
an empty position when the company is well-formed — fails with the zod
message of the first violated field. The error is raised by the schema
parse before the supabase insert call is ever made, which the model
reflects by returning `.error` with no successor store: no record is
persisted. -/
theorem create_application_empty_fields (caller : UserId)
    (company position status notes : String) (now : Nat) (db : DB) :
    (jsTrim company = "" →
      createApplication caller company position status notes now db =
        .error (.validation "Company name is required")) ∧
    (jsTrim company ≠ "" → (jsTrim company).length ≤ 100 →
      jsTrim position = "" →
      createApplication caller company position status notes now db =
        .error (.validation "Position is required")) := by
  constructor
  · intro h
    unfold createApplication parseApplicationSchema
    rw [h]
    simp
  · intro h1 h2 h3
    unfold createApplication parseApplicationSchema
    rw [h3]
    have hc1 : ¬ (jsTrim company).length < 1 := by
      simpa [Nat.lt_one_iff, string_length_eq_zero_iff] using h1
    have hc2 : ¬ (jsTrim company).length > 100 := Nat.not_lt.mpr h2
    simp [hc1, hc2]

/-- Witness for C3: a whitespace-only company, then a whitespace-only
position, each rejected with its own field's message. -/
theorem create_application_empty_fields_witness :
    (jsTrim " " = "" ∧
      createApplication 1 " " "Engineer" "applied" "" 0 dbAcme =
        .error (.validation "Company name is required")) ∧
    (jsTrim "  " = "" ∧
      createApplication 1 "Acme" "  " "applied" "" 0 dbAcme =
        .error (.validation "Position is required")) :=
  ⟨⟨by decide,
    (create_application_empty_fields 1 " " "Engineer" "applied" "" 0
      dbAcme).1 (by decide)⟩,
   ⟨by decide,
    (create_application_empty_fields 1 "Acme" "  " "applied" "" 0
      dbAcme).2 (by decide) (by decide) (by decide)⟩⟩

/-! ## C4 -/

/-- C4 counterexample. Updating application 0 (owned by caller 1) with
the out-of-enum status "nonexistent" is not caught by client-side
validation — `applicationSchema` covers only company/position/notes — so
the statement reaches the database and fails with the generic database
error, not a ValidationError as the claim states. -/
theorem update_invalid_status_not_validation_error :
    updateApplication 1 0 "Acme" "Engineer" "nonexistent" "" 5 dbAcme =
      .error .dbError ∧
    isValidationError
      (updateApplication 1 0 "Acme" "Engineer" "nonexistent" "" 5 dbAcme) =
      false :=
  ⟨rfl, rfl⟩

/-- C4 amended. Neither Create-Application nor Update-Application
validates `status` client-side; a status outside the enum is rejected by
the `valid_status` CHECK constraint when a row is actually written: the
call fails with the generic database error (not a ValidationError), the
statement aborts, and — the model returning no successor store — no record
is created or changed. -/
theorem status_enforced_by_check_constraint (caller : UserId) (id : AppId)
    (company position status notes : String) (now : Nat) (db : DB)
    (hv : parseApplicationSchema company position notes = none)
    (hs : isValidStatus status = false)
    (hm : ∃ a ∈ db.applications, a.id = id ∧ a.user_id = caller) :
    createApplication caller company position status notes now db =
      .error .dbError ∧
    updateApplication caller id company position status notes now db =
      .error .dbError := by
  constructor
  · unfold createApplication
    rw [hv]
    unfold insertApplication
    simp [hs]
  · unfold updateApplication
    rw [hv]
    obtain ⟨a, ha, h1, h2⟩ := hm
    have hany : db.applications.any
        (fun a => a.id == id && a.user_id == caller) = true := by
      rw [List.any_eq_true]
      exact ⟨a, ha, by simp [h1, h2]⟩
    simp [hany, hs]

/-- Witness for C4 (amended): the concrete out-of-enum update of the C4
counterexample, plus the matching create, both end in the database error. -/
theorem status_enforced_by_check_constraint_witness :
    (parseApplicationSchema "Acme" "Engineer" "" = none ∧
      isValidStatus "nonexistent" = false) ∧
    createApplication 1 "Acme" "Engineer" "nonexistent" "" 5 dbAcme =
      .error .dbError ∧
    updateApplication 1 0 "Acme" "Engineer" "nonexistent" "" 5 dbAcme =
      .error .dbError :=
  ⟨⟨by decide, by decide⟩,
   status_enforced_by_check_constraint 1 0 "Acme" "Engineer" "nonexistent"
     "" 5 dbAcme (by decide) (by decide) ⟨appAcme, by decide, rfl, rfl⟩⟩

/-! ## C5 -/

/-- A successful insert stores the given row with the fresh id, and the
owner can immediately fetch exactly that row. -/
theorem fetchApplication_insert (caller : UserId) (row : AppInsert)
    (now : Nat) (db : DB) (r : AppId × DB)
    (hlt : ∀ a ∈ db.applications, a.id < db.nextAppId)
    (h : insertApplication caller row now db = .ok r) :
    fetchApplication caller r.1 r.2 =
      some { id := db.nextAppId, user_id := caller, company := row.company,
             position := row.position, status := row.status.getD "applied",
             notes := row.notes, created_at := now, updated_at := now } := by
  unfold insertApplication at h
  split at h
  · exact absurd h (by simp)
  · split at h
    · exact absurd h (by simp)
    · rename_i hu _
      rw [Bool.not_eq_true, bne_eq_false_iff_eq] at hu
      injection h with h
      subst h
      unfold fetchApplication visibleApps
      simp only [List.filter_append]
      rw [List.find?_append]
      have hnone : (db.applications.filter
          (fun a => a.user_id == caller)).find?
            (fun a => a.id == db.nextAppId) = none := by
        rw [List.find?_eq_none]
        intro x hx hbeq
        have hxlt := hlt x (List.mem_filter.mp hx).1
        have hxeq : x.id = db.nextAppId := by simpa using hbeq
        exact absurd hxeq (Nat.ne_of_lt hxlt)
      rw [hnone, hu]
      simp

/-- A successful insert always hands back the fresh id. -/
theorem insertApplication_ok_id (caller : UserId) (row : AppInsert)
    (now : Nat) (db : DB) (r : AppId × DB)
    (h : insertApplication caller row now db = .ok r) :
    r.1 = db.nextAppId := by
  unfold insertApplication at h
  split at h
  · exact absurd h (by simp)
  · split at h
    · exact absurd h (by simp)
    · injection h with h
      rw [← h]

/-- C5. Round trip: a Create-Application that passes validation with a
valid status yields a record that Get-Application returns verbatim — the
trimmed user-supplied company and position, the normalized notes, the given
status, owner = caller and both timestamps at creation time; an insert that
leaves `status` unspecified stores the table default "applied". -/
theorem create_get_round_trip (caller : UserId)
    (company position status notes : String) (now : Nat) (db : DB)
    (hwf : WF db)
    (hv : parseApplicationSchema company position notes = none)
    (_hs : isValidStatus status = true) :
    (∀ r, createApplication caller company position status notes now db =
        .ok r →
      fetchApplication caller r.1 r.2 =
        some { id := r.1, user_id := caller, company := jsTrim company,
               position := jsTrim position, status := status,
               notes := normNotes notes, created_at := now,
               updated_at := now }) ∧
    (∀ r, insertApplication caller
        { user_id := caller, company := jsTrim company,
          position := jsTrim position, status := none,
          notes := normNotes notes } now db = .ok r →
      (fetchApplication caller r.1 r.2).map (fun a => a.status) =
        some "applied") := by
  constructor
  · intro r h
    unfold createApplication at h
    simp only [hv] at h
    have hid : r.1 = db.nextAppId := insertApplication_ok_id _ _ _ _ _ h
    have := fetchApplication_insert caller _ now db r hwf.appIdsLt h
    rw [this, hid]
    rfl
  · intro r h
    have := fetchApplication_insert caller _ now db r hwf.appIdsLt h
    rw [this]
    rfl

/-- The store after user 1 creates " Globex " / "Manager" / "offer" with
notes " note " at time 7 on top of `dbAcme`. -/
def dbGlobex : DB :=
  { applications :=
      [appAcme,
       { id := 1, user_id := 1, company := "Globex", position := "Manager",
         status := "offer", notes := some "note", created_at := 7,
         updated_at := 7 }],
    tasks := [], nextAppId := 2, nextTaskId := 1 }

/-- Witness for C5: the concrete round trip on `dbAcme`, untrimmed inputs
included. -/
theorem create_get_round_trip_witness :
    parseApplicationSchema " Globex " "Manager" " note " = none ∧
    isValidStatus "offer" = true ∧
    fetchApplication 1 1 dbGlobex =
      some { id := 1, user_id := 1, company := "Globex",
             position := "Manager", status := "offer", notes := some "note",
             created_at := 7, updated_at := 7 } := by
  refine ⟨by decide, by decide, ?_⟩
  have h := (create_get_round_trip 1 " Globex " "Manager" "offer" " note " 7
      dbAcme (by refine ⟨?_, ?_, ?_, ?_, ?_⟩ <;> decide) (by decide)
      (by decide)).1 (1, dbGlobex) rfl
  exact h

/-! ## C6 -/

/-- Under primary-key uniqueness, the embedded-resource join of the Tasks
page resolves a task's caller-owned parent to exactly its company/position
summary. -/
theorem joinApp_eq (caller : UserId) (db : DB) (t : TaskRow)
    (a : ApplicationRow)
    (hnd : (db.applications.map (fun x => x.id)).Nodup)
    (haMem : a ∈ db.applications) (hid : a.id = t.application_id)
    (hu : a.user_id = caller) :
    joinApp caller db t = some (a.company, a.position) := by
  unfold joinApp
  have h1 : a ∈ visibleApps caller db := mem_visibleApps.mpr ⟨haMem, hu⟩
  have h2 : ((visibleApps caller db).map (fun x => x.id)).Nodup :=
    hnd.sublist ((List.filter_sublist _).map _)
  have h3 := find?_key_eq (fun x => x.id) (visibleApps caller db) a h2 h1
  have h4 : (visibleApps caller db).find?
      (fun x => x.id == t.application_id) = some a := by
    simpa [hid] using h3
  rw [h4]
  rfl

/-- C6. List-Tasks returns exactly the caller's tasks — sorted by due
date ascending with null due dates last and ties broken by creation time
descending — each joined with its parent application's company and
position. Stated under the schema invariants `WF` and the task invariant
the system maintains (a task's owner equals its parent application's
owner). -/
theorem list_tasks_sorted_joined (caller : UserId) (db : DB)
    (hwf : WF db)
    (hown : ∀ t ∈ db.tasks, ∀ a ∈ db.applications,
        a.id = t.application_id → a.user_id = t.user_id) :
    List.Sorted taskListLE ((fetchTasks caller db).map Prod.fst) ∧
    ((fetchTasks caller db).map Prod.fst).Perm (visibleTasks caller db) ∧
    (∀ p ∈ fetchTasks caller db, p.1.user_id = caller ∧
      ∃ a ∈ db.applications, a.id = p.1.application_id ∧
        a.user_id = caller ∧ p.2 = some (a.company, a.position)) := by
  have hkey : (fetchTasks caller db).map Prod.fst =
      List.insertionSort taskListLE (visibleTasks caller db) := by
    unfold fetchTasks
    rw [List.map_map]
    exact List.map_id _
  refine ⟨?_, ?_, ?_⟩
  · rw [hkey]
    exact List.sorted_insertionSort taskListLE _
  · rw [hkey]
    exact List.perm_insertionSort taskListLE _
  · intro p hp
    unfold fetchTasks at hp
    rw [List.mem_map] at hp
    obtain ⟨t, ht, rfl⟩ := hp
    have htv : t ∈ visibleTasks caller db :=
      (List.perm_insertionSort taskListLE _).mem_iff.mp ht
    obtain ⟨htmem, htu⟩ := mem_visibleTasks.mp htv
    obtain ⟨a, haMem, haid⟩ := hwf.taskParent t htmem
    have hau : a.user_id = caller := by
      rw [hown t htmem a haMem haid, htu]
    exact ⟨htu, a, haMem, haid,  hau,
      joinApp_eq caller db t a hwf.appIdsNodup haMem haid hau⟩

/-- User 2's application with three tasks: two sharing due date 5 with
different creation times, one with no due date. -/
def dbTasks : DB :=
  { applications := [appAcme, appBeta],
    tasks :=
      [{ id := 0, application_id := 1, user_id := 2, title := "Prep call",
         due_date := some 5, completed := false, notes := none,
         created_at := 2, updated_at := 2 },
       { id := 1, application_id := 1, user_id := 2, title := "Send thanks",
         due_date := none, completed := false, notes := none,
         created_at := 3, updated_at := 3 },
       { id := 2, application_id := 1, user_id := 2, title := "Research",
         due_date := some 5, completed := false, notes := none,
         created_at := 9, updated_at := 9 }],
    nextAppId := 2, nextTaskId := 3 }

/-- Witness for C6: the concrete task list of `dbTasks` comes back sorted
and is a permutation of user 2's tasks. -/
theorem list_tasks_sorted_joined_witness :
    List.Sorted taskListLE ((fetchTasks 2 dbTasks).map Prod.fst) ∧
    ((fetchTasks 2 dbTasks).map Prod.fst).Perm (visibleTasks 2 dbTasks) :=
  ⟨(list_tasks_sorted_joined 2 dbTasks
      (by refine ⟨?_, ?_, ?_, ?_, ?_⟩ <;> decide) (by decide)).1,
   (list_tasks_sorted_joined 2 dbTasks
      (by refine ⟨?_, ?_, ?_, ?_, ?_⟩ <;> decide) (by decide)).2.1⟩

/-! ## C7 -/

/-- Store `dbAcme` after caller 2 successfully creates a task under user 1's
application 0. -/
def dbCross : DB :=
  { applications := [appAcme],
    tasks :=
      [{ id := 1, application_id := 0, user_id := 2, title := "Follow up",
         due_date := none, completed := false, notes := none,
         created_at := 3, updated_at := 3 }],
    nextAppId := 1, nextTaskId := 2 }

/-- User 1's and user 2's applications with user 2's task under their own
application 1. -/
def dbTwo : DB :=
  { applications := [appAcme, appBeta],
    tasks :=
      [{ id := 0, application_id := 1, user_id := 2, title := "Prep",
         due_date := none, completed := false, notes := none,
         created_at := 2, updated_at := 2 }],
    nextAppId := 2, nextTaskId := 1 }

/-- Store `dbTwo` after caller 2 successfully reassigns task 0 to user 1's
application 0. -/
def dbTwoRe : DB :=
  { applications := [appAcme, appBeta],
    tasks :=
      [{ id := 0, application_id := 0, user_id := 2, title := "Prep",
         due_date := none, completed := false, notes := none,
         created_at := 2, updated_at := 4 }],
    nextAppId := 2, nextTaskId := 1 }

/-- C7, evaluated at the failing input. Caller 2 creates a task whose
`applicationId` is application 0, owned by user 1: the insert *succeeds*
(the tasks `INSERT` policy checks only `auth.uid() = user_id`, and the
foreign-key lookup bypasses row security), leaving a task that references a
foreign owner's application — the spec instead requires NotFoundError and
no task. Likewise Update-Task reassigning task 0 (owned by caller 2) to the
foreign application 0 succeeds. No code path re-validates the new parent's
owner. -/
theorem cross_owner_task_accepted :
    createTask 2 (some 0) "Follow up" none "" 3 dbAcme = .ok (1, dbCross) ∧
    updateTask 2 0 "Prep" (some 0) none false "" 4 dbTwo = .ok dbTwoRe :=
  ⟨rfl, rfl⟩

/-! ## C8 -/

/-- Filtering by owner then searching by id commutes with an id- and
owner-preserving per-row rewrite of the task table. -/
theorem find?_filter_map_pres (caller : UserId) (tid : TaskId)
    (g : TaskRow → TaskRow)
    (hid : ∀ t, (g t).id = t.id) (hu : ∀ t, (g t).user_id = t.user_id) :
    ∀ l : List TaskRow,
      ((l.map g).filter (fun t => t.user_id == caller)).find?
          (fun t => t.id == tid) =
        ((l.filter (fun t => t.user_id == caller)).find?
          (fun t => t.id == tid)).map g := by
  intro l
  induction l with
  | nil => rfl
  | cons x xs ih =>
    simp only [List.map_cons, List.filter_cons, hu x]
    by_cases hx : (x.user_id == caller) = true
    · rw [hx]
      simp only [if_pos]
      rw [List.find?_cons, List.find?_cons, hid x]
      by_cases hx2 : (x.id == tid) = true
      · rw [hx2]
        rfl
      · rw [Bool.not_eq_true] at hx2
        rw [hx2, ih]
    · rw [Bool.not_eq_true] at hx
      rw [hx]
      simp only [if_neg Bool.false_ne_true, ih]

/-- Lemma: `toggleComplete` seen through `fetchTask`: the fetched row is the old
row with `completed` flipped relative to the toggled snapshot. -/
theorem fetchTask_toggleComplete (caller : UserId) (tid : TaskId)
    (s : TaskRow) (now : Nat) (db : DB) :
    fetchTask caller tid (toggleComplete caller s now db) =
      (fetchTask caller tid db).map (fun r =>
        if r.id == s.id && r.user_id == caller then
          { r with completed := !s.completed, updated_at := now }
        else r) := by
  unfold fetchTask visibleTasks toggleComplete
  exact find?_filter_map_pres caller tid _
    (fun t => by by_cases h : (t.id == s.id && t.user_id == caller) = true <;>
      simp [h])
    (fun t => by by_cases h : (t.id == s.id && t.user_id == caller) = true <;>
      simp [h])
    db.tasks

/-- C8. Toggling a task's completed flag twice — with the row re-fetched
between the two toggles, as the page does — restores the original completed
value. -/
theorem double_toggle_identity (caller : UserId) (t t1 : TaskRow)
    (db : DB) (now1 now2 : Nat)
    (ht : fetchTask caller t.id db = some t)
    (ht1 : fetchTask caller t.id (toggleComplete caller t now1 db) =
      some t1) :
    (fetchTask caller t.id
        (toggleComplete caller t1 now2 (toggleComplete caller t now1 db))).map
      (fun x => x.completed) = some t.completed := by
  have htu : t.user_id = caller :=
    (mem_visibleTasks.mp (List.mem_of_find?_eq_some ht)).2
  have h1 : t1 = { t with completed := !t.completed, updated_at := now1 } := by
    rw [fetchTask_toggleComplete, ht] at ht1
    simp [htu] at ht1
    rw [← htu] at ht1
    exact ht1.symm
  rw [fetchTask_toggleComplete, fetchTask_toggleComplete, ht]
  simp [h1, htu]

/-- Task 0 of `dbTasks`, as first fetched. -/
def taskPrep : TaskRow :=
  { id := 0, application_id := 1, user_id := 2, title := "Prep call",
    due_date := some 5, completed := false, notes := none,
    created_at := 2, updated_at := 2 }

/-- Row `taskPrep` after the first toggle at time 11. -/
def taskPrepToggled : TaskRow :=
  { id := 0, application_id := 1, user_id := 2, title := "Prep call",
    due_date := some 5, completed := true, notes := none,
    created_at := 2, updated_at := 11 }

/-- Witness for C8: toggling task 0 of `dbTasks` at times 11 and 12 lands
back on `completed = false`. -/
theorem double_toggle_identity_witness :
    (fetchTask 2 0 dbTasks).map (fun x => x.completed) = some false ∧
    (fetchTask 2 0
        (toggleComplete 2 taskPrepToggled 12
          (toggleComplete 2 taskPrep 11 dbTasks))).map
      (fun x => x.completed) = some false :=
  ⟨rfl, double_toggle_identity 2 taskPrep taskPrepToggled dbTasks
    11 12 rfl rfl⟩

/-! ## C9 -/

/-- C9. A successful Update-Application never changes any row's id or
owner — the update payload simply does not carry them, and the RLS policy
scopes the write to the caller's own rows — while the
`update_updated_at_column` trigger stamps the written row's `updated_at`
with the statement time. -/
theorem update_preserves_id_owner (caller : UserId) (id : AppId)
    (company position status notes : String) (now : Nat) (db db2 : DB)
    (h : updateApplication caller id company position status notes now db =
      .ok db2) :
    db2.applications.map (fun a => (a.id, a.user_id)) =
      db.applications.map (fun a => (a.id, a.user_id)) ∧
    ∀ a ∈ db.applications, a.id = id → a.user_id = caller →
      ∃ a2 ∈ db2.applications, a2.id = id ∧ a2.user_id = caller ∧
        a2.updated_at = now := by
  unfold updateApplication at h
  cases hp : parseApplicationSchema company position notes with
  | some msg =>
    simp only [hp] at h
    exact absurd h (by simp)
  | none =>
    simp only [hp] at h
    split at h
    · exact absurd h (by simp)
    · injection h with h
      subst h
      constructor
      · rw [List.map_map]
        congr 1
        funext a
        by_cases hc : (a.id == id && a.user_id == caller) = true
        · rw [Function.comp_apply, if_pos hc]
        · rw [Function.comp_apply, if_neg hc]
      · intro a ha haid hau
        have hmem : ({ a with company := jsTrim company,
                              position := jsTrim position, status := status,
                              notes := normNotes notes,
                              updated_at := now } : ApplicationRow) ∈
            List.map (fun a =>
              if a.id == id && a.user_id == caller then
                { a with company := jsTrim company,
                         position := jsTrim position, status := status,
                         notes := normNotes notes, updated_at := now }
              else a) db.applications := by
          rw [List.mem_map]
          refine ⟨a, ha, ?_⟩
          simp [haid, hau]
        exact ⟨_, hmem, haid, hau, rfl⟩

/-- Store `dbAcme` after user 1 updates application 0 at time 9. -/
def dbUpd : DB :=
  { applications :=
      [{ id := 0, user_id := 1, company := "NewCo", position := "Boss",
         status := "interview", notes := none, created_at := 0,
         updated_at := 9 }],
    tasks := [], nextAppId := 1, nextTaskId := 1 }

/-- Witness for C9: the concrete update of application 0 keeps the
(id, owner) column pair of the table pointwise unchanged. -/
theorem update_preserves_id_owner_witness :
    dbUpd.applications.map (fun a => (a.id, a.user_id)) =
      dbAcme.applications.map (fun a => (a.id, a.user_id)) :=
  (update_preserves_id_owner 1 0 "NewCo" "Boss" "interview" "" 9 dbAcme
    dbUpd rfl).1

/-! ## C10 -/

/-- C10. Inputs are whitespace-normalized before validation and
persistence: a whitespace-only company is rejected as empty by both
Create-Application and Update-Application; a successful create or update
stores company and position trimmed; and notes that trim to the empty
string are stored as `NULL` (`none`), otherwise trimmed. -/
theorem input_normalization (caller : UserId) (id : AppId)
    (company position status notes : String) (now : Nat) (db : DB) :
    (jsTrim company = "" →
      isValidationError
          (createApplication caller company position status notes now db) =
        true ∧
      isValidationError
          (updateApplication caller id company position status notes now db) =
        true) ∧
    (∀ r, createApplication caller company position status notes now db =
        .ok r →
      ∃ a ∈ r.2.applications, a.company = jsTrim company ∧
        a.position = jsTrim position ∧ a.notes = normNotes notes) ∧
    (∀ db2, updateApplication caller id company position status notes now db =
        .ok db2 →
      ∀ a ∈ db2.applications, a.id = id → a.user_id = caller →
        a.company = jsTrim company ∧ a.position = jsTrim position ∧
          a.notes = normNotes notes) ∧
    (jsTrim notes = "" → normNotes notes = none) ∧
    (jsTrim notes ≠ "" → normNotes notes = some (jsTrim notes)) := by
  refine ⟨?_, ?_, ?_, ?_, ?_⟩
  · intro h
    constructor
    · unfold createApplication parseApplicationSchema
      rw [h]
      simp [isValidationError]
    · unfold updateApplication parseApplicationSchema
      rw [h]
      simp [isValidationError]
  · intro r h
    unfold createApplication at h
    cases hp : parseApplicationSchema company position notes with
    | some msg =>
      simp only [hp] at h
      exact absurd h (by simp)
    | none =>
      simp only [hp] at h
      unfold insertApplication at h
      split at h
      · exact absurd h (by simp)
      · split at h
        · exact absurd h (by simp)
        · injection h with h
          subst h
          exact ⟨_, List.mem_append_right _ (List.mem_singleton_self _),
            rfl, rfl, rfl⟩
  · intro db2 h
    unfold updateApplication at h
    cases hp : parseApplicationSchema company position notes with
    | some msg =>
      simp only [hp] at h
      exact absurd h (by simp)
    | none =>
      simp only [hp] at h
      split at h
      · exact absurd h (by simp)
      · injection h with h
        subst h
        intro a ha haid hau
        rw [List.mem_map] at ha
        obtain ⟨a0, ha0, rfl⟩ := ha
        by_cases hc : (a0.id == id && a0.user_id == caller) = true
        · rw [if_pos hc]
          exact ⟨rfl, rfl, rfl⟩
        · rw [if_neg (by simpa using hc)] at haid hau ⊢
          exact absurd (by simp [haid, hau]) hc
  · intro h
    unfold normNotes
    rw [h]
    simp
  · intro h
    unfold normNotes
    rw [if_neg (by simpa using h)]

/-- Witness for C10: a whitespace-only company is rejected, and
whitespace-only notes normalize to `NULL`. -/
theorem input_normalization_witness :
    isValidationError
        (createApplication 1 "   " "Engineer" "applied" "" 0 dbAcme) =
      true ∧
    normNotes "  " = none :=
  ⟨((input_normalization 1 0 "   " "Engineer" "applied" "" 0 dbAcme).1
      (by decide)).1,
   (input_normalization 1 0 "x" "y" "applied" "  " 0 dbAcme).2.2.2.1
      (by decide)⟩

end JobTracker
